import Mathlib

/-!
# Currency conversion and rate-caching subsystem — formal model

Shallow embedding of the currency conversion core of the MoMoneyTracker
repository (the `currency.ts` module, `src/unnamed/part_005`, together with
the `exchange_rates` schema of `src/unnamed/part_004`).

Times are modelled as natural numbers of milliseconds (JavaScript
`Date.now()`), rates and amounts as rationals, dates as their ISO
`YYYY-MM-DD` strings (the source immediately truncates its `Date` argument
to `date.toISOString().split('T')[0]`).
-/

set_option autoImplicit false

/-- The closed currency enumeration (`type Currency = 'USD' | 'SAR' | 'EGP'`). -/
inductive Currency where
  | USD
  | SAR
  | EGP
deriving DecidableEq, Repr

/-- Cache expiration time, 6 hours in milliseconds (part_005 line 43). -/
def CACHE_EXPIRATION : Nat := 6 * 60 * 60 * 1000

/-- Rate-limiter ceiling (part_005 line 47). -/
def MAX_CALLS_PER_MINUTE : Nat := 30

/-- Sliding-window width in milliseconds (part_005 line 48). -/
def ONE_MINUTE : Nat := 60 * 1000

/-- One in-memory cache entry `{rate, timestamp}` (part_005 lines 30-35). -/
structure CacheEntry where
  rate : ℚ
  timestamp : Nat
deriving DecidableEq, Repr

/-- In-memory cache key: `date → fromCurrency → toCurrency` flattened to a
triple, per the nested-object indexing of `exchangeRatesCache`. -/
abbrev CacheKey := String × Currency × Currency

/-- The in-memory cache `exchangeRatesCache`, as an association list. -/
abbrev Cache := List (CacheKey × CacheEntry)

/-- Look a key up in the in-memory cache (optional-chained read,
part_005 line 80). -/
def cacheLookup (cache : Cache) (k : CacheKey) : Option CacheEntry :=
  match cache.find? (fun p => p.1 = k) with
  | some p => some p.2
  | none => none

/-- Overwrite-or-insert a cache entry
(`exchangeRatesCache[dateStr][from][to] = {...}`, part_005 lines 109/167). -/
def cachePut (cache : Cache) (k : CacheKey) (e : CacheEntry) : Cache :=
  (k, e) :: cache.filter (fun p => p.1 ≠ k)

/-- The truthy-and-fresh cache test of part_005 lines 79-85: the entry is
used iff its `rate` is truthy (nonzero) and `now - timestamp` is under the
expiration window; returns the rate served from cache, if any. -/
def cacheFresh (cache : Cache) (k : CacheKey) (now : Nat) : Option ℚ :=
  match cacheLookup cache k with
  | some e =>
    if e.rate ≠ 0 ∧ now - e.timestamp < CACHE_EXPIRATION then some e.rate else none
  | none => none

/-- One row of the `exchange_rates` table (part_004 lines 16-24; the `id`
and `created_at` columns play no role in the core and are omitted). -/
structure StoreRow where
  from_currency : Currency
  to_currency : Currency
  date : String
  rate : ℚ
  updated_at : Nat
deriving DecidableEq, Repr

/-- Does a row carry the composite key `(from_currency, to_currency, date)`? -/
def keyIs (f t : Currency) (d : String) (r : StoreRow) : Bool :=
  r.from_currency == f && r.to_currency == t && r.date == d

/-- The `.eq(...).eq(...).eq(...).single()` lookup of part_005 lines 89-95:
Supabase `.single()` succeeds iff exactly one row matches. -/
def dbSingle (store : List StoreRow) (f t : Currency) (d : String) : Option StoreRow :=
  match store.filter (keyIs f t d) with
  | [r] => some r
  | _ => none

/-- Store lookup combined with the freshness test of part_005 lines 97-99:
the found row is served iff `now - updated_at < CACHE_EXPIRATION`. -/
def storeFresh (store : List StoreRow) (f t : Currency) (d : String) (now : Nat) :
    Option StoreRow :=
  match dbSingle store f t d with
  | some row => if now - row.updated_at < CACHE_EXPIRATION then some row else none
  | none => none

/-- `upsert` with `onConflict: 'from_currency,to_currency,date'`
(part_005 lines 141-152): rows carrying the conflicting composite key are
overwritten in place; otherwise the row is appended. -/
def upsert (store : List StoreRow) (row : StoreRow) : List StoreRow :=
  if store.any (keyIs row.from_currency row.to_currency row.date) then
    store.map (fun r =>
      if keyIs row.from_currency row.to_currency row.date r then row else r)
  else
    store ++ [row]

/-- Prune the front of `API_CALLS` (part_005 lines 59-61): shift while the
head is older than one minute. -/
def pruneCalls (now : Nat) : List Nat → List Nat
  | [] => []
  | t :: ts => if now - t > ONE_MINUTE then pruneCalls now ts else t :: ts

/-- `canMakeApiCall` (part_005 lines 56-63): prune, then admit iff the
remaining count is below the ceiling. Returns the pruned sequence (the
pruning mutates `API_CALLS`) and the verdict. -/
def canMakeApiCall (now : Nat) (calls : List Nat) : List Nat × Bool :=
  let pruned := pruneCalls now calls
  (pruned, pruned.length < MAX_CALLS_PER_MINUTE)

/-- The admission check as `getExchangeRate` performs it (part_005 lines
117-123): `canMakeApiCall`, and on admission push `now` onto `API_CALLS`. -/
def tryAdmit (now : Nat) (calls : List Nat) : List Nat × Bool :=
  let (pruned, ok) := canMakeApiCall now calls
  if ok then (pruned ++ [now], true) else (pruned, false)

/-- Provider response shape (`{result, error-type, conversion_rates}`):
`conversion_rates` maps each target currency to its rate when present. -/
structure ApiResponse where
  result : String
  errorType : String
  conversion_rates : Currency → Option ℚ

/-- External collaborators: the rate provider (deterministic response per
base currency) and whether the store upsert fails. -/
structure Env where
  provider : Currency → ApiResponse
  upsertFails : Bool

/-- The module-level mutable state of part_005: the in-memory cache
(line 40), the limiter timestamps `API_CALLS` (line 46), and the
`exchange_rates` table. -/
structure EngineState where
  cache : Cache
  apiCalls : List Nat
  store : List StoreRow
deriving Repr

/-- I/O trace of one engine call: counters for in-memory cache reads and
writes, persistent-store lookups, provider fetches, and the list of rows an
upsert was attempted with. -/
structure Trace where
  cacheReads : Nat
  cacheWrites : Nat
  storeLookups : Nat
  providerCalls : Nat
  upsertAttempts : List StoreRow
deriving DecidableEq, Repr

/-- The no-I/O trace. -/
def emptyTrace : Trace :=
  { cacheReads := 0, cacheWrites := 0, storeLookups := 0, providerCalls := 0,
    upsertAttempts := [] }

/-- The errors thrown by the core: `'Rate limit exceeded...'` (line 119),
`` `API Error: ${data['error-type']}` `` (line 132),
`` `No conversion rate found for ${toCurrency}` `` (line 137), and
`'Failed to convert amount'` (line 195). -/
inductive Err where
  | rateLimitExceeded
  | apiError (t : String)
  | noConversionRate (c : Currency)
  | failedToConvertAmount
deriving DecidableEq, Repr

/-- Outcome of one engine call: result (or thrown error), the state after
the call, and the I/O trace. -/
structure GERResult where
  result : Except Err ℚ
  state : EngineState
  tr : Trace
deriving Repr

/-- The limiter-gated provider path of `getExchangeRate`
(part_005 lines 117-172), entered when both cache tiers missed.
`tr0` is the trace accumulated so far (one cache read, one store lookup). -/
def apiPath (env : Env) (st : EngineState) (now : Nat)
    (fromCurrency toCurrency : Currency) (dateStr : String) (tr0 : Trace) : GERResult :=
  if (canMakeApiCall now st.apiCalls).2 then
    let st1 : EngineState := { st with apiCalls := (canMakeApiCall now st.apiCalls).1 ++ [now] }
    let resp := env.provider fromCurrency
    let tr1 : Trace := { tr0 with providerCalls := tr0.providerCalls + 1 }
    if resp.result = "error" then
      { result := .error (.apiError resp.errorType), state := st1, tr := tr1 }
    else
      match resp.conversion_rates toCurrency with
      | none =>
        { result := .error (.noConversionRate toCurrency), state := st1, tr := tr1 }
      | some rate =>
        if rate = 0 then
          { result := .error (.noConversionRate toCurrency), state := st1, tr := tr1 }
        else
          let row : StoreRow :=
            { from_currency := fromCurrency, to_currency := toCurrency,
              date := dateStr, rate := rate, updated_at := now }
          let st2 : EngineState :=
            if env.upsertFails then st1 else { st1 with store := upsert st1.store row }
          let entry : CacheEntry := { rate := rate, timestamp := now }
          let st3 : EngineState :=
            { st2 with
              cache := cachePut st2.cache (dateStr, fromCurrency, toCurrency) entry }
          let tr2 : Trace :=
            { tr1 with
              cacheWrites := tr1.cacheWrites + 1
              upsertAttempts := tr1.upsertAttempts ++ [row] }
          { result := .ok rate, state := st3, tr := tr2 }
  else
    { result := .error .rateLimitExceeded,
      state := { st with apiCalls := (canMakeApiCall now st.apiCalls).1 },
      tr := tr0 }

/-- `getExchangeRate` (part_005 lines 68-179): identity short-circuit
(line 73), truthy-and-fresh in-memory cache check (lines 79-85), store
lookup with freshness check and cache write-back stamped `now`
(lines 89-115), then the limiter-gated provider path. The `catch` block
(lines 173-178) rethrows every thrown `Error` unchanged, so errors are
returned directly. -/
def getExchangeRate (env : Env) (st : EngineState) (now : Nat)
    (fromCurrency toCurrency : Currency) (dateStr : String) : GERResult :=
  if fromCurrency = toCurrency then
    { result := .ok 1, state := st, tr := emptyTrace }
  else
    let k : CacheKey := (dateStr, fromCurrency, toCurrency)
    match cacheFresh st.cache k now with
    | some r =>
      { result := .ok r, state := st, tr := { emptyTrace with cacheReads := 1 } }
    | none =>
      let tr0 : Trace := { emptyTrace with cacheReads := 1, storeLookups := 1 }
      match storeFresh st.store fromCurrency toCurrency dateStr now with
      | some row =>
        { result := .ok row.rate,
          state := { st with cache := cachePut st.cache k ⟨row.rate, now⟩ },
          tr := { tr0 with cacheWrites := 1 } }
      | none => apiPath env st now fromCurrency toCurrency dateStr tr0

/-- `convertAmount` (part_005 lines 184-197): multiply by the resolved
rate; its `catch` block replaces any thrown error with the generic
`new Error('Failed to convert amount')`. -/
def convertAmount (env : Env) (st : EngineState) (now : Nat) (amount : ℚ)
    (fromCurrency toCurrency : Currency) (dateStr : String) : GERResult :=
  let r := getExchangeRate env st now fromCurrency toCurrency dateStr
  match r.result with
  | .ok rate => { r with result := .ok (amount * rate) }
  | .error _ => { r with result := .error .failedToConvertAmount }

instance : DecidableEq (Except Err ℚ) := fun a b =>
  match a, b with
  | .ok x, .ok y =>
    if h : x = y then isTrue (by rw [h]) else isFalse (by simp [h])
  | .error x, .error y =>
    if h : x = y then isTrue (by rw [h]) else isFalse (by simp [h])
  | .ok _, .error _ => isFalse (by simp)
  | .error _, .ok _ => isFalse (by simp)

/-! ## Concrete scenario data

Fixed inputs used to instantiate the theorems below on concrete runs. -/

/-- The rate 3.75 = 15/4 of the end-to-end scenario, as a normal-form
rational. -/
def rateSAR : ℚ := ⟨15, 4, by decide, by decide⟩

/-- A concrete `Date.now()` value (2024-06-01T04:00:00Z in milliseconds). -/
def c1Now : Nat := 1717214400000

/-- Provider answering every base with
`{result: "success", conversion_rates: {SAR: 3.75}}`. -/
def provider1 : Currency → ApiResponse := fun _ =>
  { result := "success", errorType := "",
    conversion_rates := fun c => match c with | .SAR => some rateSAR | _ => none }

/-- Environment with the successful provider and a working store. -/
def env1 : Env := { provider := provider1, upsertFails := false }

/-- Environment with the successful provider but a failing store upsert. -/
def envFail : Env := { provider := provider1, upsertFails := true }

/-- Provider answering every base with an error payload. -/
def errProvider : Currency → ApiResponse := fun _ =>
  { result := "error", errorType := "invalid-key", conversion_rates := fun _ => none }

/-- Environment whose provider always reports an error payload. -/
def envErr : Env := { provider := errProvider, upsertFails := false }

/-- Empty cache, fresh limiter, empty store. -/
def emptyState : EngineState := { cache := [], apiCalls := [], store := [] }

/-- The end-to-end scenario's first call:
`convertAmount(200, USD, SAR, 2024-06-01)` on the empty state. -/
def c1First : GERResult := convertAmount env1 emptyState c1Now 200 .USD .SAR "2024-06-01"

/-- The single row the end-to-end scenario upserts. -/
def c1Row : StoreRow :=
  { from_currency := .USD, to_currency := .SAR, date := "2024-06-01",
    rate := rateSAR, updated_at := c1Now }

/-- Run a list of admission attempts (prune + check + record on success)
through the limiter, returning the final timestamp sequence and the list of
verdicts. -/
def runAttempts : List Nat → List Nat → List Nat × List Bool
  | [], calls => (calls, [])
  | t :: ts, calls =>
    ((runAttempts ts (tryAdmit t calls).1).1,
     (tryAdmit t calls).2 :: (runAttempts ts (tryAdmit t calls).1).2)

/-- Arguments of one `getExchangeRate` call. -/
structure CallArgs where
  now : Nat
  fromCurrency : Currency
  toCurrency : Currency
  dateStr : String

/-- Thread the engine state through a sequence of `getExchangeRate` calls. -/
def runCalls (env : Env) : EngineState → List CallArgs → EngineState
  | st, [] => st
  | st, a :: as =>
    runCalls env (getExchangeRate env st a.now a.fromCurrency a.toCurrency a.dateStr).state as

/-- A store row for `(USD, SAR, 2024-06-01)` last updated at time 0 —
stale by more than 6 hours at `c4Now`. -/
def staleRow : StoreRow :=
  { from_currency := .USD, to_currency := .SAR, date := "2024-06-01",
    rate := rateSAR, updated_at := 0 }

/-- The moment exactly 6 hours after `staleRow` was written. -/
def c4Now : Nat := CACHE_EXPIRATION

/-- Empty cache, limiter holding 30 unexpired timestamps, store holding
only the stale row. -/
def c4State : EngineState :=
  { cache := [], apiCalls := List.replicate 30 c4Now, store := [staleRow] }

/-- A store row for `(USD, SAR, 2024-06-01)` last updated at time 1000 —
still fresh at time 2000. -/
def freshRow : StoreRow :=
  { from_currency := .USD, to_currency := .SAR, date := "2024-06-01",
    rate := rateSAR, updated_at := 1000 }

/-- Empty cache, fresh limiter, store holding only the fresh row. -/
def c6State : EngineState := { cache := [], apiCalls := [], store := [freshRow] }

/-- State whose in-memory cache holds `(2024-06-01, USD, SAR) ↦ (3.75, t=1000)`. -/
def c2State : EngineState :=
  { cache := [(("2024-06-01", .USD, .SAR), ⟨rateSAR, 1000⟩)], apiCalls := [], store := [] }

/-! ## Helper lemmas -/

theorem rateSAR_eq : rateSAR = 15 / 4 := by
  have h := Rat.num_div_den rateSAR
  simpa [rateSAR] using h.symm

theorem cacheLookup_cachePut_self (cache : Cache) (k : CacheKey) (e : CacheEntry) :
    cacheLookup (cachePut cache k e) k = some e := by
  simp [cacheLookup, cachePut, List.find?]

/-- C9: identity short-circuit — `getExchangeRate(X, X, date)` returns `1`
with the state untouched and zero I/O: no cache read or write, no store
lookup or upsert, no provider call, no limiter mutation. -/
theorem C9_identity_short_circuit (env : Env) (st : EngineState) (now : Nat)
    (X : Currency) (d : String) :
    (getExchangeRate env st now X X d).result = .ok 1 ∧
    (getExchangeRate env st now X X d).state = st ∧
    (getExchangeRate env st now X X d).tr = emptyTrace := by
  simp [getExchangeRate]

/-- C5 counterexample: with a provider that returns an error payload,
`getExchangeRate` fails with the specific `API Error: invalid-key`, but
`convertAmount` on the same inputs fails with the generic
`Failed to convert amount` — a different error, so the same error does not
surface unchanged from `convertAmount`. -/
theorem C5_counterexample :
    (getExchangeRate envErr emptyState 0 .USD .SAR "2024-06-01").result
      = .error (.apiError "invalid-key") ∧
    (convertAmount envErr emptyState 0 200 .USD .SAR "2024-06-01").result
      = .error .failedToConvertAmount ∧
    (Except.error (Err.apiError "invalid-key") : Except Err ℚ)
      ≠ .error .failedToConvertAmount := by
  refine ⟨by decide, by decide, by decide⟩

/-- C5 (amended): every resolution failure propagates as a failure — the
engine never substitutes a default or stale rate — but while
`getExchangeRate` surfaces the specific error, `convertAmount` replaces any
error with the generic `Failed to convert amount`; on success it returns
the amount times the resolved rate. -/
theorem C5_error_propagation (env : Env) (st : EngineState) (now : Nat)
    (amount : ℚ) (f t : Currency) (d : String) :
    (convertAmount env st now amount f t d).result =
      match (getExchangeRate env st now f t d).result with
      | .ok r => .ok (amount * r)
      | .error _ => .error .failedToConvertAmount := by
  cases h : (getExchangeRate env st now f t d).result <;>
    simp [convertAmount, h]

theorem convertAmount_result (env : Env) (st : EngineState) (now : Nat)
    (amount : ℚ) (f t : Currency) (d : String) :
    (convertAmount env st now amount f t d).result =
      match (getExchangeRate env st now f t d).result with
      | .ok r => .ok (amount * r)
      | .error _ => .error .failedToConvertAmount := by
  cases h : (getExchangeRate env st now f t d).result <;> simp [convertAmount, h]

theorem convertAmount_tr (env : Env) (st : EngineState) (now : Nat)
    (amount : ℚ) (f t : Currency) (d : String) :
    (convertAmount env st now amount f t d).tr
      = (getExchangeRate env st now f t d).tr := by
  cases h : (getExchangeRate env st now f t d).result <;> simp [convertAmount, h]

theorem convertAmount_state (env : Env) (st : EngineState) (now : Nat)
    (amount : ℚ) (f t : Currency) (d : String) :
    (convertAmount env st now amount f t d).state
      = (getExchangeRate env st now f t d).state := by
  cases h : (getExchangeRate env st now f t d).result <;> simp [convertAmount, h]

theorem getExchangeRate_cache_hit (env : Env) (st : EngineState) (now : Nat)
    (f t : Currency) (d : String) (r : ℚ) (hft : f ≠ t)
    (hfresh : cacheFresh st.cache (d, f, t) now = some r) :
    getExchangeRate env st now f t d =
      { result := .ok r, state := st, tr := { emptyTrace with cacheReads := 1 } } := by
  simp [getExchangeRate, hft, hfresh]

theorem getExchangeRate_store_hit (env : Env) (st : EngineState) (now : Nat)
    (f t : Currency) (d : String) (row : StoreRow) (hft : f ≠ t)
    (hmiss : cacheFresh st.cache (d, f, t) now = none)
    (hhit : storeFresh st.store f t d now = some row) :
    getExchangeRate env st now f t d =
      { result := .ok row.rate,
        state := { st with cache := cachePut st.cache (d, f, t) ⟨row.rate, now⟩ },
        tr := { emptyTrace with cacheReads := 1, cacheWrites := 1, storeLookups := 1 } } := by
  simp [getExchangeRate, hft, hmiss, hhit]

theorem getExchangeRate_miss (env : Env) (st : EngineState) (now : Nat)
    (f t : Currency) (d : String) (hft : f ≠ t)
    (hmiss : cacheFresh st.cache (d, f, t) now = none)
    (hnone : storeFresh st.store f t d now = none) :
    getExchangeRate env st now f t d =
      apiPath env st now f t d { emptyTrace with cacheReads := 1, storeLookups := 1 } := by
  simp [getExchangeRate, hft, hmiss, hnone]

theorem apiPath_denied (env : Env) (st : EngineState) (now : Nat)
    (f t : Currency) (d : String) (tr0 : Trace)
    (hlim : ¬ (pruneCalls now st.apiCalls).length < MAX_CALLS_PER_MINUTE) :
    apiPath env st now f t d tr0 =
      { result := .error .rateLimitExceeded,
        state := { st with apiCalls := pruneCalls now st.apiCalls },
        tr := tr0 } := by
  simp [apiPath, canMakeApiCall, hlim]

theorem apiPath_success (env : Env) (st : EngineState) (now : Nat)
    (f t : Currency) (d : String) (tr0 : Trace) (rate : ℚ)
    (hlim : (pruneCalls now st.apiCalls).length < MAX_CALLS_PER_MINUTE)
    (hok : (env.provider f).result ≠ "error")
    (hrate : (env.provider f).conversion_rates t = some rate)
    (hnz : rate ≠ 0) :
    apiPath env st now f t d tr0 =
      { result := .ok rate,
        state :=
          { cache := cachePut st.cache (d, f, t) ⟨rate, now⟩,
            apiCalls := pruneCalls now st.apiCalls ++ [now],
            store := if env.upsertFails then st.store
                     else upsert st.store ⟨f, t, d, rate, now⟩ },
        tr :=
          { tr0 with
            providerCalls := tr0.providerCalls + 1
            cacheWrites := tr0.cacheWrites + 1
            upsertAttempts := tr0.upsertAttempts ++ [⟨f, t, d, rate, now⟩] } } := by
  by_cases hu : env.upsertFails <;>
    simp [apiPath, canMakeApiCall, hlim, hok, hrate, hnz, hu]

theorem apiPath_tr_storeLookups (env : Env) (st : EngineState) (now : Nat)
    (f t : Currency) (d : String) (tr0 : Trace) :
    (apiPath env st now f t d tr0).tr.storeLookups = tr0.storeLookups := by
  simp only [apiPath]
  repeat' split
  all_goals rfl

/-- C1: end-to-end resolution — on the empty store, fresh limiter and empty
cache, with the provider answering base USD with SAR ↦ 3.75,
`convertAmount(200, USD, SAR, 2024-06-01)` returns 750, attempts exactly
one upsert writing `(USD, SAR, 2024-06-01, 3.75, now)`, leaves exactly that
row in the store, and populates the in-memory cache so that a second
identical call within 6 hours makes zero further provider calls. -/
theorem C1_end_to_end :
    c1First.result = .ok 750 ∧
    c1First.tr.upsertAttempts = [c1Row] ∧
    c1First.state.store = [c1Row] ∧
    ∀ t1 : Nat, c1Now ≤ t1 → t1 - c1Now < CACHE_EXPIRATION →
      (convertAmount env1 c1First.state t1 200 .USD .SAR "2024-06-01").result = .ok 750 ∧
      (convertAmount env1 c1First.state t1 200 .USD .SAR "2024-06-01").tr.providerCalls
        = 0 := by
  have hmul : (200 : ℚ) * rateSAR = 750 := by rw [rateSAR_eq]; norm_num
  refine ⟨?_, by decide, by decide, ?_⟩
  · have h : c1First.result = .ok (200 * rateSAR) := rfl
    rw [h, hmul]
  · intro t1 _ h2
    have hlook : cacheLookup c1First.state.cache ("2024-06-01", .USD, .SAR)
        = some ⟨rateSAR, c1Now⟩ := by decide
    have hfresh : cacheFresh c1First.state.cache ("2024-06-01", .USD, .SAR) t1
        = some rateSAR := by
      have hnz : rateSAR ≠ 0 := by decide
      simp [cacheFresh, hlook, h2, hnz]
    have hger := getExchangeRate_cache_hit env1 c1First.state t1 .USD .SAR "2024-06-01"
      rateSAR (by decide) hfresh
    constructor
    · rw [convertAmount_result, hger]
      show (Except.ok (200 * rateSAR) : Except Err ℚ) = .ok 750
      rw [hmul]
    · rw [convertAmount_tr, hger]
      rfl

theorem C1_end_to_end_witness :
    (convertAmount env1 c1First.state (c1Now + 1000) 200 .USD .SAR "2024-06-01").result
      = .ok 750 :=
  (C1_end_to_end.2.2.2 (c1Now + 1000) (by decide) (by decide)).1

/-- C2: cache freshness window — with a cached entry `(r, ts)` for a pair
(rates are positive per the data model), a call at `ts + 5h59m` returns the
cached rate with no store lookup and no provider call; a call at
`ts + 6h01m` does not use the entry and performs a store lookup (a fresh
resolution); and the in-memory freshness test is exactly
`now - fetchedAtTimestamp < 6h`, checked lazily at read time. -/
theorem C2_cache_freshness (env : Env) (st : EngineState) (f t : Currency)
    (d : String) (r : ℚ) (ts : Nat) (hft : f ≠ t)
    (hc : cacheLookup st.cache (d, f, t) = some ⟨r, ts⟩) (hr : 0 < r) :
    ((getExchangeRate env st (ts + 21540000) f t d).result = .ok r ∧
     (getExchangeRate env st (ts + 21540000) f t d).tr.storeLookups = 0 ∧
     (getExchangeRate env st (ts + 21540000) f t d).tr.providerCalls = 0) ∧
    (getExchangeRate env st (ts + 21660000) f t d).tr.storeLookups = 1 ∧
    (∀ now : Nat, cacheFresh st.cache (d, f, t) now =
      if now - ts < CACHE_EXPIRATION then some r else none) := by
  have hlaw : ∀ now : Nat, cacheFresh st.cache (d, f, t) now =
      if now - ts < CACHE_EXPIRATION then some r else none := by
    intro now
    by_cases h : now - ts < CACHE_EXPIRATION <;>
      simp [cacheFresh, hc, h, ne_of_gt hr]
  refine ⟨?_, ?_, hlaw⟩
  · have hfresh : cacheFresh st.cache (d, f, t) (ts + 21540000) = some r := by
      rw [hlaw]
      rw [Nat.add_sub_cancel_left]
      exact if_pos (by decide)
    rw [getExchangeRate_cache_hit env st _ f t d r hft hfresh]
    exact ⟨rfl, rfl, rfl⟩
  · have hnone : cacheFresh st.cache (d, f, t) (ts + 21660000) = none := by
      rw [hlaw]
      rw [Nat.add_sub_cancel_left]
      exact if_neg (by decide)
    cases hsf : storeFresh st.store f t d (ts + 21660000) with
    | some row =>
      rw [getExchangeRate_store_hit env st _ f t d row hft hnone hsf]
    | none =>
      rw [getExchangeRate_miss env st _ f t d hft hnone hsf]
      rw [apiPath_tr_storeLookups]

theorem C2_cache_freshness_witness :
    (getExchangeRate env1 c2State (1000 + 21540000) .USD .SAR "2024-06-01").result
      = .ok rateSAR :=
  (C2_cache_freshness env1 c2State .USD .SAR "2024-06-01" rateSAR 1000
    (by decide) (by decide) (by decide)).1.1

/-- C6 counterexample: on a cache miss with a fresh store row (written at
time 1000, read at time 2000), `getExchangeRate` returns the stored rate
but stamps the new in-memory cache entry with the current time 2000, not
with the store record's `updated_at` of 1000 — the claimed equality
`fetchedAtTimestamp = lastUpdated` fails. -/
theorem C6_counterexample :
    (getExchangeRate env1 c6State 2000 .USD .SAR "2024-06-01").result = .ok freshRow.rate ∧
    cacheLookup (getExchangeRate env1 c6State 2000 .USD .SAR "2024-06-01").state.cache
      ("2024-06-01", .USD, .SAR) = some ⟨freshRow.rate, 2000⟩ ∧
    freshRow.updated_at = 1000 ∧
    cacheLookup (getExchangeRate env1 c6State 2000 .USD .SAR "2024-06-01").state.cache
      ("2024-06-01", .USD, .SAR) ≠ some ⟨freshRow.rate, freshRow.updated_at⟩ := by
  refine ⟨by decide, by decide, by decide, by decide⟩

/-- C6 (amended): when the in-memory cache misses and the store lookup
finds a record fresher than 6 hours, `getExchangeRate` returns the stored
rate with no provider call and populates the in-memory cache with that rate
stamped with the current read time `now` (not the record's `updated_at`). -/
theorem C6_store_hit_writeback (env : Env) (st : EngineState) (now : Nat)
    (f t : Currency) (d : String) (row : StoreRow) (hft : f ≠ t)
    (hmiss : cacheFresh st.cache (d, f, t) now = none)
    (hdb : dbSingle st.store f t d = some row)
    (hfr : now - row.updated_at < CACHE_EXPIRATION) :
    (getExchangeRate env st now f t d).result = .ok row.rate ∧
    (getExchangeRate env st now f t d).tr.providerCalls = 0 ∧
    cacheLookup (getExchangeRate env st now f t d).state.cache (d, f, t)
      = some ⟨row.rate, now⟩ := by
  have hsf : storeFresh st.store f t d now = some row := by
    unfold storeFresh
    rw [hdb]
    exact if_pos hfr
  rw [getExchangeRate_store_hit env st now f t d row hft hmiss hsf]
  exact ⟨rfl, rfl, cacheLookup_cachePut_self _ _ _⟩

theorem pruneCalls_noop (now : Nat) (calls : List Nat)
    (h : ∀ c ∈ calls, now - c ≤ ONE_MINUTE) : pruneCalls now calls = calls := by
  cases calls with
  | nil => rfl
  | cons c cs =>
    unfold pruneCalls
    rw [if_neg (Nat.not_lt.mpr (h c (List.mem_cons_self c cs)))]

theorem pruneCalls_length_le (now : Nat) (calls : List Nat) :
    (pruneCalls now calls).length ≤ calls.length := by
  induction calls with
  | nil => exact Nat.le_refl 0
  | cons c cs ih =>
    unfold pruneCalls
    split
    · exact Nat.le_trans ih (by simp)
    · exact Nat.le_refl _

theorem pruneCalls_suffix (now : Nat) (calls : List Nat) :
    ∃ dropped, calls = dropped ++ pruneCalls now calls := by
  induction calls with
  | nil => exact ⟨[], rfl⟩
  | cons c cs ih =>
    unfold pruneCalls
    split
    · obtain ⟨l, hl⟩ := ih
      exact ⟨c :: l, by rw [List.cons_append, ← hl]⟩
    · exact ⟨[], rfl⟩

theorem pruneCalls_filter (now : Nat) (calls : List Nat)
    (hmono : calls.Pairwise (· ≤ ·)) :
    pruneCalls now calls = calls.filter (fun c => now - c ≤ ONE_MINUTE) := by
  induction calls with
  | nil => rfl
  | cons c cs ih =>
    obtain ⟨hhead, htail⟩ := List.pairwise_cons.mp hmono
    unfold pruneCalls
    by_cases h : now - c > ONE_MINUTE
    · rw [if_pos h, ih htail, List.filter_cons]
      simp [Nat.not_le.mpr h]
    · rw [if_neg h]
      have hkeep : ∀ x ∈ cs, now - x ≤ ONE_MINUTE := fun x hx =>
        Nat.le_trans (Nat.sub_le_sub_left (hhead x hx) now) (Nat.not_lt.mp h)
      symm
      apply List.filter_eq_self.mpr
      intro a ha
      rcases List.mem_cons.mp ha with rfl | hmem
      · exact decide_eq_true (Nat.not_lt.mp h)
      · exact decide_eq_true (hkeep a hmem)

theorem tryAdmit_admitted (now : Nat) (calls : List Nat)
    (h : (pruneCalls now calls).length < MAX_CALLS_PER_MINUTE) :
    tryAdmit now calls = (pruneCalls now calls ++ [now], true) := by
  simp [tryAdmit, canMakeApiCall, h]

theorem tryAdmit_denied (now : Nat) (calls : List Nat)
    (h : ¬ (pruneCalls now calls).length < MAX_CALLS_PER_MINUTE) :
    tryAdmit now calls = (pruneCalls now calls, false) := by
  simp [tryAdmit, canMakeApiCall, h]

theorem runAttempts_append (xs ys calls : List Nat) :
    runAttempts (xs ++ ys) calls =
      ((runAttempts ys (runAttempts xs calls).1).1,
       (runAttempts xs calls).2 ++ (runAttempts ys (runAttempts xs calls).1).2) := by
  induction xs generalizing calls with
  | nil => simp [runAttempts]
  | cons x xs ih => simp [runAttempts, ih]

theorem runAttempts_all_admitted (times calls : List Nat)
    (hlen : calls.length + times.length ≤ MAX_CALLS_PER_MINUTE)
    (hcal : ∀ t ∈ times, ∀ c ∈ calls, t - c ≤ ONE_MINUTE)
    (hself : ∀ t ∈ times, ∀ s ∈ times, t - s ≤ ONE_MINUTE) :
    runAttempts times calls = (calls ++ times, List.replicate times.length true) := by
  induction times generalizing calls with
  | nil => simp [runAttempts]
  | cons t ts ih =>
    have hnoop : pruneCalls t calls = calls :=
      pruneCalls_noop t calls (fun c hc => hcal t (List.mem_cons_self t ts) c hc)
    have hlt : (pruneCalls t calls).length < MAX_CALLS_PER_MINUTE := by
      rw [hnoop]
      simp only [List.length_cons] at hlen
      omega
    have hrec := ih (calls ++ [t])
      (by simp only [List.length_append, List.length_cons, List.length_nil] at hlen ⊢; omega)
      (fun a ha c hc => by
        rcases List.mem_append.mp hc with hc1 | hc2
        · exact hcal a (List.mem_cons_of_mem t ha) c hc1
        · have hct : c = t := by simpa using hc2
          rw [hct]
          exact hself a (List.mem_cons_of_mem t ha) t (List.mem_cons_self t ts))
      (fun a ha s hs =>
        hself a (List.mem_cons_of_mem t ha) s (List.mem_cons_of_mem t hs))
    simp only [runAttempts, tryAdmit_admitted t calls hlt, hnoop, hrec]
    simp [List.replicate_succ, List.append_assoc]

/-- C3: rate limiter — (a) with monotone timestamps, the front-pruning
admission check removes exactly the timestamps older than one minute;
(b) it admits, recording `now`, iff the remaining count is below the
ceiling of 30, and denies without recording otherwise; (c) 31 admission
attempts within a 10-second span on a fresh limiter yield 30 admissions
followed by 1 denial; (d) an attempt 61 seconds after the first admitted
call succeeds. -/
theorem C3_rate_limiter_ceiling (now : Nat) (calls : List Nat)
    (tFirst : Nat) (mid : List Nat) (tLast : Nat)
    (hmono : calls.Pairwise (· ≤ ·))
    (hlen : mid.length = 29)
    (hspan : ∀ a ∈ tFirst :: mid ++ [tLast], ∀ b ∈ tFirst :: mid ++ [tLast],
      a - b ≤ 10 * 1000) :
    pruneCalls now calls = calls.filter (fun c => now - c ≤ ONE_MINUTE) ∧
    tryAdmit now calls =
      (if (pruneCalls now calls).length < MAX_CALLS_PER_MINUTE
       then (pruneCalls now calls ++ [now], true)
       else (pruneCalls now calls, false)) ∧
    (runAttempts (tFirst :: mid ++ [tLast]) []).2
      = List.replicate 30 true ++ [false] ∧
    (tryAdmit (tFirst + 61 * 1000) (runAttempts (tFirst :: mid ++ [tLast]) []).1).2
      = true := by
  have hmem : ∀ a ∈ tFirst :: mid, a ∈ tFirst :: mid ++ [tLast] := by
    intro a ha
    rcases List.mem_cons.mp ha with h | h
    · exact h ▸ List.mem_cons_self _ _
    · exact List.mem_cons_of_mem _ (List.mem_append_left _ h)
  have hwin : ∀ a ∈ tFirst :: mid, ∀ b ∈ tFirst :: mid, a - b ≤ ONE_MINUTE := by
    intro a ha b hb
    have := hspan a (hmem a ha) b (hmem b hb)
    unfold ONE_MINUTE
    omega
  have h30 : runAttempts (tFirst :: mid) [] =
      ([] ++ (tFirst :: mid), List.replicate (tFirst :: mid).length true) :=
    runAttempts_all_admitted (tFirst :: mid) []
      (by simp [hlen, MAX_CALLS_PER_MINUTE])
      (by intro a _ c hc; cases hc)
      hwin
  have hlen30 : (tFirst :: mid).length = 30 := by simp [hlen]
  have hnoopLast : pruneCalls tLast (tFirst :: mid) = tFirst :: mid :=
    pruneCalls_noop tLast (tFirst :: mid) (fun c hc => by
      have := hspan tLast (List.mem_cons_of_mem _ (List.mem_append_right _
        (List.mem_singleton_self tLast))) c (hmem c hc)
      unfold ONE_MINUTE
      omega)
  have hdenied : tryAdmit tLast (tFirst :: mid) = (tFirst :: mid, false) := by
    rw [tryAdmit_denied]
    · rw [hnoopLast]
    · rw [hnoopLast, hlen30]
      simp [MAX_CALLS_PER_MINUTE]
  have hsplit : tFirst :: mid ++ [tLast] = (tFirst :: mid) ++ [tLast] := rfl
  have hrun : runAttempts (tFirst :: mid ++ [tLast]) [] =
      (tFirst :: mid, List.replicate 30 true ++ [false]) := by
    rw [hsplit, runAttempts_append, h30]
    simp only [List.nil_append, hlen30]
    simp [runAttempts, hdenied]
  refine ⟨pruneCalls_filter now calls hmono, ?_, ?_, ?_⟩
  · by_cases h : (pruneCalls now calls).length < MAX_CALLS_PER_MINUTE
    · rw [tryAdmit_admitted now calls h, if_pos h]
    · rw [tryAdmit_denied now calls h, if_neg h]
  · rw [hrun]
  · rw [hrun]
    have hdrop : pruneCalls (tFirst + 61 * 1000) (tFirst :: mid)
        = pruneCalls (tFirst + 61 * 1000) mid := by
      have hgt : tFirst + 61 * 1000 - tFirst > ONE_MINUTE := by
        unfold ONE_MINUTE
        omega
      conv_lhs => unfold pruneCalls
      rw [if_pos hgt]
    rw [tryAdmit_admitted]
    rw [hdrop]
    have := pruneCalls_length_le (tFirst + 61 * 1000) mid
    rw [hlen] at this
    unfold MAX_CALLS_PER_MINUTE
    omega

theorem C3_rate_limiter_ceiling_witness :
    (runAttempts (1000 :: List.replicate 29 1000 ++ [1500]) []).2
      = List.replicate 30 true ++ [false] :=
  (C3_rate_limiter_ceiling 0 [] 1000 (List.replicate 29 1000) 1500
    (List.Pairwise.nil) (by simp) (by decide)).2.2.1

/-- C4 counterexample: with the store holding a record for
`(USD, SAR, 2024-06-01)` whose `updated_at` is 6 hours old and the limiter
at its ceiling, `getExchangeRate` throws `Rate limit exceeded` instead of
returning the stale stored value — the code has no stale fallback. -/
theorem C4_counterexample :
    (getExchangeRate env1 c4State c4Now .USD .SAR "2024-06-01").result
      = .error .rateLimitExceeded ∧
    dbSingle c4State.store .USD .SAR "2024-06-01" = some staleRow ∧
    ¬ c4Now - staleRow.updated_at < CACHE_EXPIRATION ∧
    (getExchangeRate env1 c4State c4Now .USD .SAR "2024-06-01").result
      ≠ .ok staleRow.rate := by
  refine ⟨by decide, by decide, by decide, by decide⟩

/-- C4 (amended): `getExchangeRate` fails with `RateLimitExceeded` when the
limiter denies admission and neither cache tier held a FRESH value; stale
cached or stored values are never used as a fallback, the denial only
prunes the limiter sequence, and no provider call is made. -/
theorem C4_rate_limit_failure (env : Env) (st : EngineState) (now : Nat)
    (f t : Currency) (d : String) (hft : f ≠ t)
    (hcache : cacheFresh st.cache (d, f, t) now = none)
    (hstore : storeFresh st.store f t d now = none)
    (hlim : ¬ (pruneCalls now st.apiCalls).length < MAX_CALLS_PER_MINUTE) :
    (getExchangeRate env st now f t d).result = .error .rateLimitExceeded ∧
    (getExchangeRate env st now f t d).state.apiCalls = pruneCalls now st.apiCalls ∧
    (getExchangeRate env st now f t d).tr.providerCalls = 0 := by
  rw [getExchangeRate_miss env st now f t d hft hcache hstore,
      apiPath_denied env st now f t d _ hlim]
  exact ⟨rfl, rfl, rfl⟩

theorem C4_rate_limit_failure_witness :
    (getExchangeRate env1 c4State c4Now .USD .SAR "2024-06-01").result
        = .error .rateLimitExceeded ∧
    (getExchangeRate env1 c4State c4Now .USD .SAR "2024-06-01").state.apiCalls
        = pruneCalls c4Now c4State.apiCalls ∧
    (getExchangeRate env1 c4State c4Now .USD .SAR "2024-06-01").tr.providerCalls = 0 :=
  C4_rate_limit_failure env1 c4State c4Now .USD .SAR "2024-06-01"
    (by decide) (by decide) (by decide) (by decide)

theorem filter_overwrite (K : StoreRow → Bool) (row : StoreRow) (hK : K row = true)
    (s : List StoreRow) :
    (s.map (fun r => if K r then row else r)).filter K
      = (s.filter K).map (fun _ => row) := by
  induction s with
  | nil => rfl
  | cons r rs ih =>
    cases h : K r with
    | true => simp [h, hK, ih]
    | false => simp [h, ih]

theorem upsert_filter_key (f t : Currency) (d : String) (rate : ℚ) (u : Nat)
    (s : List StoreRow)
    (h1 : (s.filter (keyIs f t d)).length ≤ 1) :
    (upsert s ⟨f, t, d, rate, u⟩).filter (keyIs f t d) = [⟨f, t, d, rate, u⟩] := by
  have hK : keyIs f t d ⟨f, t, d, rate, u⟩ = true := by simp [keyIs]
  by_cases hany : s.any (keyIs f t d)
  · have : (upsert s ⟨f, t, d, rate, u⟩)
        = s.map (fun r => if keyIs f t d r then ⟨f, t, d, rate, u⟩ else r) := by
      simp [upsert, hany]
    rw [this, filter_overwrite _ _ hK]
    obtain ⟨x, hx, hKx⟩ := List.any_eq_true.mp hany
    have hmem : x ∈ s.filter (keyIs f t d) := List.mem_filter.mpr ⟨hx, hKx⟩
    have hone : (s.filter (keyIs f t d)).length = 1 :=
      Nat.le_antisymm h1 (List.length_pos.mpr (List.ne_nil_of_mem hmem))
    obtain ⟨a, ha⟩ := List.length_eq_one.mp hone
    rw [ha]
    rfl
  · have hups : upsert s ⟨f, t, d, rate, u⟩ = s ++ [⟨f, t, d, rate, u⟩] := by
      simp [upsert, hany]
    have hnil : s.filter (keyIs f t d) = [] := by
      rw [List.filter_eq_nil_iff]
      intro a ha
      exact fun hKa => (List.any_eq_false.mp (Bool.eq_false_iff.mpr hany) a ha) hKa
    rw [hups, List.filter_append, hnil, List.nil_append]
    simp [hK]

/-- C7: idempotent upsert — starting from a store satisfying the composite
uniqueness constraint for `(f, t, d)` (at most one row), two sequential
upserts for that key with different rates leave exactly one logical row for
the key, carrying the second write's rate and timestamp. -/
theorem C7_idempotent_upsert (s : List StoreRow) (f t : Currency) (d : String)
    (r1 r2 : ℚ) (u1 u2 : Nat) (_hne : r1 ≠ r2)
    (h1 : (s.filter (keyIs f t d)).length ≤ 1) :
    (upsert (upsert s ⟨f, t, d, r1, u1⟩) ⟨f, t, d, r2, u2⟩).filter (keyIs f t d)
      = [⟨f, t, d, r2, u2⟩] := by
  apply upsert_filter_key
  rw [upsert_filter_key f t d r1 u1 s h1]
  simp

theorem C7_idempotent_upsert_witness :
    (upsert (upsert [] ⟨.USD, .EGP, "2024-05-01", 48, 100⟩)
        ⟨.USD, .EGP, "2024-05-01", 49, 200⟩).filter (keyIs .USD .EGP "2024-05-01")
      = [⟨.USD, .EGP, "2024-05-01", 49, 200⟩] :=
  C7_idempotent_upsert [] .USD .EGP "2024-05-01" 48 49 100 200
    (by norm_num) (by simp)

/-- C8: store-write failure is non-fatal — when the provider fetch succeeds
but the upsert fails, `getExchangeRate` still returns the fresh rate,
populates the in-memory cache with it, leaves the store unchanged, and
records the attempted write instead of propagating it as a failure. -/
theorem C8_store_write_failure_nonfatal (env : Env) (st : EngineState) (now : Nat)
    (f t : Currency) (d : String) (rate : ℚ)
    (hfail : env.upsertFails = true) (hft : f ≠ t)
    (hcache : cacheFresh st.cache (d, f, t) now = none)
    (hstore : storeFresh st.store f t d now = none)
    (hlim : (pruneCalls now st.apiCalls).length < MAX_CALLS_PER_MINUTE)
    (hok : (env.provider f).result ≠ "error")
    (hrate : (env.provider f).conversion_rates t = some rate)
    (hnz : rate ≠ 0) :
    (getExchangeRate env st now f t d).result = .ok rate ∧
    cacheLookup (getExchangeRate env st now f t d).state.cache (d, f, t)
      = some ⟨rate, now⟩ ∧
    (getExchangeRate env st now f t d).state.store = st.store ∧
    (getExchangeRate env st now f t d).tr.upsertAttempts = [⟨f, t, d, rate, now⟩] := by
  rw [getExchangeRate_miss env st now f t d hft hcache hstore,
      apiPath_success env st now f t d _ rate hlim hok hrate hnz]
  refine ⟨rfl, cacheLookup_cachePut_self _ _ _, ?_, rfl⟩
  simp [hfail]

theorem C8_store_write_failure_nonfatal_witness :
    (getExchangeRate envFail emptyState 0 .USD .SAR "2024-06-01").result = .ok rateSAR ∧
    cacheLookup (getExchangeRate envFail emptyState 0 .USD .SAR "2024-06-01").state.cache
      ("2024-06-01", .USD, .SAR) = some ⟨rateSAR, 0⟩ ∧
    (getExchangeRate envFail emptyState 0 .USD .SAR "2024-06-01").state.store
      = emptyState.store ∧
    (getExchangeRate envFail emptyState 0 .USD .SAR "2024-06-01").tr.upsertAttempts
      = [⟨.USD, .SAR, "2024-06-01", rateSAR, 0⟩] :=
  C8_store_write_failure_nonfatal envFail emptyState 0 .USD .SAR "2024-06-01" rateSAR
    (by decide) (by decide) (by decide) (by decide) (by decide) (by decide)
    (by decide) (by decide)

theorem apiPath_state_apiCalls (env : Env) (st : EngineState) (now : Nat)
    (f t : Currency) (d : String) (tr0 : Trace) :
    (apiPath env st now f t d tr0).state.apiCalls =
      if (pruneCalls now st.apiCalls).length < MAX_CALLS_PER_MINUTE
      then pruneCalls now st.apiCalls ++ [now]
      else pruneCalls now st.apiCalls := by
  by_cases h : (pruneCalls now st.apiCalls).length < MAX_CALLS_PER_MINUTE
  · rw [if_pos h]
    simp only [apiPath, canMakeApiCall]
    rw [if_pos (by simpa using h)]
    repeat' split
    all_goals rfl
  · rw [if_neg h]
    simp only [apiPath, canMakeApiCall]
    rw [if_neg (by simpa using h)]

theorem getExchangeRate_apiCalls_bound (env : Env) (st : EngineState) (now : Nat)
    (f t : Currency) (d : String)
    (h : st.apiCalls.length ≤ MAX_CALLS_PER_MINUTE) :
    (getExchangeRate env st now f t d).state.apiCalls.length
      ≤ MAX_CALLS_PER_MINUTE := by
  by_cases hft : f = t
  · simpa [getExchangeRate, hft] using h
  · cases hcf : cacheFresh st.cache (d, f, t) now with
    | some r =>
      rw [getExchangeRate_cache_hit env st now f t d r hft hcf]
      exact h
    | none =>
      cases hsf : storeFresh st.store f t d now with
      | some row =>
        rw [getExchangeRate_store_hit env st now f t d row hft hcf hsf]
        exact h
      | none =>
        rw [getExchangeRate_miss env st now f t d hft hcf hsf,
            apiPath_state_apiCalls]
        split
        · rename_i hlt
          simp only [List.length_append, List.length_cons, List.length_nil]
          omega
        · exact Nat.le_trans (pruneCalls_length_le now st.apiCalls) h

/-- C10: limiter bound invariant — starting from a limiter sequence of at
most 30 entries, any sequence of `getExchangeRate` calls leaves at most 30
recorded timestamps; an admission that returns true appends `now` only
after observing fewer than 30 unexpired entries, and a denied admission
changes the sequence only by dropping expired entries from the front,
never by recording. -/
theorem C10_limiter_bound_invariant (env : Env) (st : EngineState)
    (cs : List CallArgs) (h : st.apiCalls.length ≤ MAX_CALLS_PER_MINUTE) :
    (runCalls env st cs).apiCalls.length ≤ MAX_CALLS_PER_MINUTE ∧
    (∀ now calls, (tryAdmit now calls).2 = true →
      (tryAdmit now calls).1 = pruneCalls now calls ++ [now] ∧
      (pruneCalls now calls).length < MAX_CALLS_PER_MINUTE) ∧
    (∀ now calls, (tryAdmit now calls).2 = false →
      (tryAdmit now calls).1 = pruneCalls now calls ∧
      ∃ dropped, calls = dropped ++ pruneCalls now calls) := by
  refine ⟨?_, ?_, ?_⟩
  · induction cs generalizing st with
    | nil => exact h
    | cons a as ih =>
      exact ih _ (getExchangeRate_apiCalls_bound env st a.now
        a.fromCurrency a.toCurrency a.dateStr h)
  · intro now calls htrue
    by_cases hlt : (pruneCalls now calls).length < MAX_CALLS_PER_MINUTE
    · rw [tryAdmit_admitted now calls hlt]
      exact ⟨rfl, hlt⟩
    · rw [tryAdmit_denied now calls hlt] at htrue
      cases htrue
  · intro now calls hfalse
    by_cases hlt : (pruneCalls now calls).length < MAX_CALLS_PER_MINUTE
    · rw [tryAdmit_admitted now calls hlt] at hfalse
      cases hfalse
    · rw [tryAdmit_denied now calls hlt]
      exact ⟨rfl, pruneCalls_suffix now calls⟩

theorem C10_limiter_bound_invariant_witness :
    (runCalls env1 emptyState
        [⟨0, .USD, .SAR, "2024-06-01"⟩]).apiCalls.length ≤ MAX_CALLS_PER_MINUTE :=
  (C10_limiter_bound_invariant env1 emptyState
    [⟨0, .USD, .SAR, "2024-06-01"⟩] (by decide)).1

theorem C6_store_hit_writeback_witness :
    (getExchangeRate env1 c6State 2000 .USD .SAR "2024-06-01").result = .ok freshRow.rate ∧
    (getExchangeRate env1 c6State 2000 .USD .SAR "2024-06-01").tr.providerCalls = 0 ∧
    cacheLookup (getExchangeRate env1 c6State 2000 .USD .SAR "2024-06-01").state.cache
      ("2024-06-01", .USD, .SAR) = some ⟨freshRow.rate, 2000⟩ :=
  C6_store_hit_writeback env1 c6State 2000 .USD .SAR "2024-06-01" freshRow
    (by decide) (by decide) (by decide) (by decide)
